import Mathlib
set_option maxHeartbeats 1000000

/-!
Verification of the jamftf import-runner core (`jamftf_runner.py`): the shape
prober `obj_to_dict_deep`, the identifier/name extractors, the kind classifier
`TERRAFORM_TYPE_MAP` / `detect_tag`, the item accessor
`iter_items_from_resource`, and the import compiler `compose_import_hcl`.

The Python code is dynamically typed; it is embedded over an inductive model
of the Python runtime values the importer manipulates.  Operations that can
raise are given `Except Unit` result types, and every `try/except` of the
source is translated to an explicit match on such a result, so that the
error-handling claims are about the actual catch placement of the source.
-/

/-- Model of a Python runtime value.

* `pnone`, `pbool`, `pint`, `pstr`, `pbytes`, `plist`, `pdict` are the plain
  data shapes (dict keys are modelled as strings, which is what every record
  in this pipeline uses).
* `pobj attrs mapkvs iterE` is an arbitrary object: `attrs` models its
  instance `__dict__` (what `vars` returns and `getattr` finds); an attribute
  whose value is a callable models a zero-argument bound method.
  `mapkvs` models an optional mapping-like capability (`keys`/`get`/indexing):
  `pnone` = absent, `pdict kvs` = behaves like the mapping `kvs`, anything
  else = capability present but using it raises.
  `iterE` models `__iter__`: `pnone` = not iterable, `plist xs` = iterating
  yields `xs`, anything else = iterating raises.
* `pmeth v` is a zero-argument callable whose call returns `v`; `pmethRaise`
  is a zero-argument callable whose call raises. -/
inductive PyVal where
  | pnone
  | pbool (b : Bool)
  | pint (n : Int)
  | pstr (s : String)
  | pbytes (s : String)
  | plist (xs : List PyVal)
  | pdict (kvs : List (String × PyVal))
  | pobj (attrs : List (String × PyVal)) (mapkvs : PyVal) (iterE : PyVal)
  | pmeth (v : PyVal)
  | pmethRaise

/-- A probed field map (the Python side passes the `dict` around). -/
abbrev FieldMap := List (String × PyVal)

mutual
/-- Structural equality on modelled values (used to model the identity-based
`seen` guard of `obj_to_dict_deep`; object identity `id(o)` is not
representable in a value model, and no claim depends on the distinction). -/
def pyBeq : PyVal → PyVal → Bool
  | .pnone, .pnone => true
  | .pbool a, .pbool b => a == b
  | .pint a, .pint b => a == b
  | .pstr a, .pstr b => a == b
  | .pbytes a, .pbytes b => a == b
  | .plist a, .plist b => pyBeqList a b
  | .pdict a, .pdict b => pyBeqKvs a b
  | .pobj a1 m1 i1, .pobj a2 m2 i2 => pyBeqKvs a1 a2 && pyBeq m1 m2 && pyBeq i1 i2
  | .pmeth v1, .pmeth v2 => pyBeq v1 v2
  | .pmethRaise, .pmethRaise => true
  | _, _ => false

def pyBeqList : List PyVal → List PyVal → Bool
  | [], [] => true
  | x :: xs, y :: ys => pyBeq x y && pyBeqList xs ys
  | _, _ => false

def pyBeqKvs : List (String × PyVal) → List (String × PyVal) → Bool
  | [], [] => true
  | (k1, v1) :: xs, (k2, v2) :: ys => k1 == k2 && pyBeq v1 v2 && pyBeqKvs xs ys
  | _, _ => false


end

mutual
/-- Models Python `repr`.  Containers render their elements with `repr`, as in
Python.  `repr` of an object or a bound method contains its memory address in
Python; that is not representable, so a fixed placeholder is used (no claim
inspects those renderings). -/
def pyRepr : PyVal → String
  | .pnone => "None"
  | .pbool b => if b then "True" else "False"
  | .pint n => toString n
  | .pstr s => "\x27" ++ s ++ "\x27"
  | .pbytes s => "b\x27" ++ s ++ "\x27"
  | .plist xs => "[" ++ String.intercalate ", " (pyReprList xs) ++ "]"
  | .pdict kvs => "\x7b" ++ String.intercalate ", " (pyReprKvs kvs) ++ "\x7d"
  | .pobj _ _ _ => "<object>"
  | .pmeth _ => "<callable>"
  | .pmethRaise => "<callable>"

def pyReprList : List PyVal → List String
  | [] => []
  | x :: xs => pyRepr x :: pyReprList xs

def pyReprKvs : List (String × PyVal) → List String
  | [] => []
  | (k, v) :: rest => ("\x27" ++ k ++ "\x27: " ++ pyRepr v) :: pyReprKvs rest
end

/-- Models Python `str(v)`: identity on strings, `repr` otherwise (the default
`__str__` of every type this pipeline touches). -/
def pyStr : PyVal → String
  | .pstr s => s
  | v => pyRepr v

/-- Models Python truthiness (`if v:`). -/
def truthy : PyVal → Bool
  | .pnone => false
  | .pbool b => b
  | .pint n => n != 0
  | .pstr s => s != ""
  | .pbytes s => s != ""
  | .plist xs => !xs.isEmpty
  | .pdict kvs => !kvs.isEmpty
  | .pobj _ _ _ => true
  | .pmeth _ => true
  | .pmethRaise => true

/-- First-match association lookup; Python dicts have unique keys, for which
this coincides with `d[k]` / `d.get(k)`. -/
def plookup : List (String × PyVal) → String → Option PyVal
  | [], _ => none
  | (k, v) :: rest, key => if k == key then some v else plookup rest key

/- ---------------------------------------------------------------------
`sanitize_name` (jamftf_runner.py lines 116-122):

    def sanitize_name(s: str) -> str:
        s = str(s).strip().lower()
        s = re.sub(r"[^a-z0-9_]+", "_", s)
        s = s.strip("_")
        if not s or s[0].isdigit():
            s = f"r_{s}" if s else "r"
        return s
--------------------------------------------------------------------- -/

/-- The character class `[a-z0-9_]` of the sanitizer's regex. -/
def goodChar (c : Char) : Bool := c.isLower || c.isDigit || c == '_'

/-- Models `str.strip()` (leading/trailing whitespace removed; the exact
whitespace set does not affect the sanitizer's output, since any whitespace
character is outside `[a-z0-9_]` and boundary runs of such characters are
collapsed to underscores that the final `strip("_")` removes). -/
def pyStripWs (l : List Char) : List Char :=
  ((l.dropWhile Char.isWhitespace).reverse.dropWhile Char.isWhitespace).reverse

/-- Models `re.sub(r"[^a-z0-9_]+", "_", s)`: every maximal run of characters
outside `[a-z0-9_]` becomes a single underscore.  `pending` records whether a
run of bad characters is open. -/
def squashAux : List Char → Bool → List Char
  | [], pending => if pending then ['_'] else []
  | c :: rest, pending =>
    if goodChar c then (if pending then ['_', c] else [c]) ++ squashAux rest false
    else squashAux rest true

/-- Models `str.strip("_")`. -/
def stripUnd (l : List Char) : List Char :=
  ((l.dropWhile (· == '_')).reverse.dropWhile (· == '_')).reverse

/-- `sanitize_name` (lines 116-122).  Takes an arbitrary value, as the source
does (`str(s)` is applied first).  `lower()` is modelled on ASCII letters;
non-ASCII characters are outside `[a-z0-9_]` either way. -/
def sanitize_name (v : PyVal) : String :=
  let l := squashAux ((pyStripWs (pyStr v).toList).map Char.toLower) false
  let l := stripUnd l
  match l with
  | [] => "r"
  | c :: _ => if c.isDigit then "r_" ++ String.mk l else String.mk l

/- ---------------------------------------------------------------------
Attribute / call / item-access primitives for modelled values.
--------------------------------------------------------------------- -/

/-- Models `getattr(v, name, None)` restricted to the attribute names the
runner probes.  Objects resolve through their instance `__dict__`; of the
probed names, a plain `dict` only exposes the bound method `items` (used by
`iter_items_from_resource`), which yields its key/value pairs; the other
builtin shapes expose none of the probed names. -/
def pgetattr : PyVal → String → Option PyVal
  | .pobj attrs _ _, name => plookup attrs name
  | .pdict kvs, name =>
    if name == "items" then
      some (.pmeth (.plist (kvs.map fun kv => .plist [.pstr kv.1, kv.2])))
    else none
  | _, _ => none

/-- Models the mapping-like probe `hasattr(o, "keys") and hasattr(o, "get")`
followed by `{k: o.get(k) for k in o.keys()}`:
`none` = capability absent (strategy skipped), `some none` = present but the
materialization raises, `some (some kvs)` = materializes to `kvs`.
An object carrying `keys`/`get` merely as zero-argument instance attributes
passes the `hasattr` test but the comprehension's `o.get(k)` call raises
(arity), hence `some none`.  Plain dicts never reach this probe (the
`isinstance(o, dict)` branch returns first). -/
def maplikeTry : PyVal → Option (Option FieldMap)
  | .pobj attrs mk _ =>
    match mk with
    | .pnone =>
      if (plookup attrs "keys").isSome && (plookup attrs "get").isSome then some none
      else none
    | .pdict kvs => some (some kvs)
    | _ => some none
  | _ => none

/-- Models `get = getattr(item, "get", None); callable(get)` and the call
`get(k)`: `none` = no callable `get`; `some g` with `g k` the call's result
(`.error` = the call raises).  Dicts and modelled mapping-like objects look
keys up with a `None` default; a zero-argument `pmeth` bound to `get` is
callable but raises on the one-argument call. -/
def pgetcall : PyVal → Option (String → Except Unit PyVal)
  | .pdict kvs => some fun k => .ok ((plookup kvs k).getD .pnone)
  | .pobj attrs mk _ =>
    match mk with
    | .pnone =>
      match plookup attrs "get" with
      | some (.pmeth _) => some fun _ => .error ()
      | some .pmethRaise => some fun _ => .error ()
      | _ => none
    | .pdict kvs => some fun k => .ok ((plookup kvs k).getD .pnone)
    | _ => some fun _ => .error ()
  | _ => none

/-- Models the indexing `item[k]` (string key): dicts raise `KeyError` on a
missing key; modelled mapping-like objects index like mappings; everything
else raises `TypeError`. -/
def pgetitem : PyVal → String → Except Unit PyVal
  | .pdict kvs, k => match plookup kvs k with | some v => .ok v | none => .error ()
  | .pobj _ (.pdict kvs) _, k =>
    match plookup kvs k with | some v => .ok v | none => .error ()
  | _, _ => .error ()

/-- Models `hasattr(v, "__iter__")` (equivalently `isinstance(v, Iterable)`). -/
def isIterable : PyVal → Bool
  | .plist _ => true
  | .pstr _ => true
  | .pbytes _ => true
  | .pdict _ => true
  | .pobj _ _ .pnone => false
  | .pobj _ _ _ => true
  | _ => false

/-- Models `list(v)`: lists copy; strings yield their characters as
one-character strings; bytes yield their byte values; dicts yield their keys;
iterable objects yield their modelled elements; anything else raises. -/
def pyListE : PyVal → Except Unit (List PyVal)
  | .plist xs => .ok xs
  | .pstr s => .ok (s.toList.map fun c => .pstr (String.mk [c]))
  | .pbytes s => .ok (s.toList.map fun c => .pint c.toNat)
  | .pdict kvs => .ok (kvs.map fun kv => .pstr kv.1)
  | .pobj _ _ (.plist xs) => .ok xs
  | _ => .error ()

/- ---------------------------------------------------------------------
JSON (models the stdlib `json` module as used by the runner).
--------------------------------------------------------------------- -/

/-- One step of a recursive-descent JSON reader, fuel-bounded.  Models
`json.loads` restricted to the shapes `PyVal` carries: objects, arrays,
strings (with the basic escapes), integers, booleans, null.  Fractional
numbers and exotic escapes are outside the modelled universe and make the
parse fail; no claim depends on them. -/
def jsonSkipWs (l : List Char) : List Char :=
  l.dropWhile fun c => c == ' ' || c == '\t' || c == '\n' || c == '\r'

def jsonString : List Char → Option (String × List Char)
  | [] => none
  | c :: rest =>
    if c == '"' then some ("", rest)
    else if c == '\\' then
      match rest with
      | [] => none
      | e :: rest2 =>
        let ec : Option Char :=
          if e == '"' then some '"'
          else if e == '\\' then some '\\'
          else if e == '/' then some '/'
          else if e == 'n' then some '\n'
          else if e == 't' then some '\t'
          else if e == 'r' then some '\r'
          else none
        match ec with
        | none => none
        | some d =>
          match jsonString rest2 with
          | some (s, r) => some (String.mk [d] ++ s, r)
          | none => none
    else
      match jsonString rest with
      | some (s, r) => some (String.mk [c] ++ s, r)
      | none => none

def jsonDigitsAux : List Char → Nat → Nat
  | [], acc => acc
  | c :: rest, acc => jsonDigitsAux rest (acc * 10 + (c.toNat - 48))

def jsonDigits (l : List Char) : Option (Nat × List Char) :=
  let ds := l.takeWhile Char.isDigit
  if ds.isEmpty then none
  else some (jsonDigitsAux ds 0, l.dropWhile Char.isDigit)

mutual
def jsonVal : Nat → List Char → Option (PyVal × List Char)
  | 0, _ => none
  | fuel + 1, l =>
    match jsonSkipWs l with
    | [] => none
    | c :: rest =>
      if c == 'n' then
        if rest.take 3 = ['u', 'l', 'l'] then some (.pnone, rest.drop 3) else none
      else if c == 't' then
        if rest.take 3 = ['r', 'u', 'e'] then some (.pbool true, rest.drop 3) else none
      else if c == 'f' then
        if rest.take 4 = ['a', 'l', 's', 'e'] then some (.pbool false, rest.drop 4) else none
      else if c == '"' then
        match jsonString rest with
        | some (s, r) => some (.pstr s, r)
        | none => none
      else if c == '-' then
        match jsonDigits rest with
        | some (n, r) =>
          if (jsonSkipWs r).head? == some '.' then none else some (.pint (-(n : Int)), r)
        | none => none
      else if c.isDigit then
        match jsonDigits (c :: rest) with
        | some (n, r) => if r.head? == some '.' then none else some (.pint (n : Int), r)
        | none => none
      else if c == '[' then
        match jsonSkipWs rest with
        | ']' :: r => some (.plist [], r)
        | l2 => match jsonArr fuel l2 with
          | some (xs, r) => some (.plist xs, r)
          | none => none
      else if c == '\x7b' then
        match jsonSkipWs rest with
        | '\x7d' :: r => some (.pdict [], r)
        | l2 => match jsonObj fuel l2 with
          | some (kvs, r) => some (.pdict kvs, r)
          | none => none
      else none

def jsonArr : Nat → List Char → Option (List PyVal × List Char)
  | 0, _ => none
  | fuel + 1, l =>
    match jsonVal fuel l with
    | none => none
    | some (v, r) =>
      match jsonSkipWs r with
      | ',' :: r2 =>
        match jsonArr fuel r2 with
        | some (xs, r3) => some (v :: xs, r3)
        | none => none
      | ']' :: r2 => some ([v], r2)
      | _ => none

def jsonObj : Nat → List Char → Option (List (String × PyVal) × List Char)
  | 0, _ => none
  | fuel + 1, l =>
    match jsonSkipWs l with
    | '"' :: r =>
      match jsonString r with
      | none => none
      | some (k, r2) =>
        match jsonSkipWs r2 with
        | ':' :: r3 =>
          match jsonVal fuel r3 with
          | none => none
          | some (v, r4) =>
            match jsonSkipWs r4 with
            | ',' :: r5 =>
              match jsonObj fuel r5 with
              | some (kvs, r6) => some ((k, v) :: kvs, r6)
              | none => none
            | '\x7d' :: r5 => some ([(k, v)], r5)
            | _ => none
        | _ => none
    | _ => none
end

/-- Models `json.loads(s)`: `none` = the parse raises. -/
def jsonLoads (s : String) : Option PyVal :=
  match jsonVal (s.length + 1) s.toList with
  | some (v, r) => if (jsonSkipWs r).isEmpty then some v else none
  | none => none

/-- `_json_try_parse` (lines 124-130): parse strings and bytes, swallowing
parse errors; anything else yields `None`. -/
def json_try_parse : PyVal → Option PyVal
  | .pstr s => jsonLoads s
  | .pbytes s => jsonLoads s
  | _ => none

/-- Escapes quotes and backslashes when rendering a JSON string. -/
def jsonEsc : List Char → String
  | [] => ""
  | c :: rest =>
    (if c == '"' then "\\\"" else if c == '\\' then "\\\\" else String.mk [c]) ++ jsonEsc rest

mutual
/-- Models `json.dumps(v, ensure_ascii=False)`: `none` = `TypeError`
(bytes, objects and callables are not JSON serializable). -/
def jsonDumps : PyVal → Option String
  | .pnone => some "null"
  | .pbool b => some (if b then "true" else "false")
  | .pint n => some (toString n)
  | .pstr s => some ("\"" ++ jsonEsc s.toList ++ "\"")
  | .pbytes _ => none
  | .plist xs =>
    match jsonDumpsList xs with
    | some parts => some ("[" ++ String.intercalate ", " parts ++ "]")
    | none => none
  | .pdict kvs =>
    match jsonDumpsKvs kvs with
    | some parts => some ("\x7b" ++ String.intercalate ", " parts ++ "\x7d")
    | none => none
  | .pobj _ _ _ => none
  | .pmeth _ => none
  | .pmethRaise => none

def jsonDumpsList : List PyVal → Option (List String)
  | [] => some []
  | x :: xs =>
    match jsonDumps x, jsonDumpsList xs with
    | some s, some rest => some (s :: rest)
    | _, _ => none

def jsonDumpsKvs : List (String × PyVal) → Option (List String)
  | [] => some []
  | (k, v) :: rest =>
    match jsonDumps v, jsonDumpsKvs rest with
    | some s, some tail => some (("\"" ++ jsonEsc k.toList ++ "\": " ++ s) :: tail)
    | _, _ => none
end

/- ---------------------------------------------------------------------
`obj_to_dict_deep` (lines 132-208): the shape prober.
--------------------------------------------------------------------- -/

/-- The fixed ordered list of container field names (line 158). -/
def containerAttrNames : List String :=
  ["data", "_data", "payload", "_payload", "raw", "_raw", "value", "_value", "item",
   "obj", "object", "response", "record", "entity", "document", "body"]

/-- The fixed ordered list of conversion-method names (line 168). -/
def convMethNames : List String := ["to_dict", "dict", "model_dump"]

/-- Result of one `_walk`: possibly an exception, otherwise the probed map (or
`none`) together with the updated `seen` set. -/
abbrev WalkRes := Except Unit (Option FieldMap × List PyVal)

/-- The container-field loop of `_walk` (lines 158-165): for each name,
`v = getattr(o, attr, None)`; a dict value is returned directly, a non-`None`
value is recursed into (the recursion is *not* wrapped in a `try`, so an
exception from it would propagate — `w` abstracts the recursive call at the
decremented depth).  The `seen` set threads through the loop. -/
def containerLoop (w : PyVal → List PyVal → WalkRes) (o : PyVal) :
    List String → List PyVal → WalkRes
  | [], seen => .ok (none, seen)
  | a :: rest, seen =>
    match (pgetattr o a).getD .pnone with
    | .pdict kvs => .ok (some kvs, seen)
    | .pnone => containerLoop w o rest seen
    | v =>
      match w v seen with
      | .error e => .error e
      | .ok (some d, s2) => .ok (some d, s2)
      | .ok (none, s2) => containerLoop w o rest s2

/-- The conversion-method loop of `_walk` (lines 167-179): for each callable
method, call it and inspect/recurse, the whole attempt wrapped in
`try/except` — a raising call or a raising recursion is swallowed and the
next method is tried.  (On a swallowed exception the source keeps whatever
identities the failed recursion added to `seen`; the model retains the `seen`
of the attempt's start, which is indistinguishable because the recursion in
fact never raises.) -/
def convMethLoop (w : PyVal → List PyVal → WalkRes) (o : PyVal) :
    List String → List PyVal → WalkRes
  | [], seen => .ok (none, seen)
  | m :: rest, seen =>
    match (pgetattr o m).getD .pnone with
    | .pmethRaise => convMethLoop w o rest seen
    | .pmeth v =>
      match v with
      | .pdict kvs => .ok (some kvs, seen)
      | v =>
        match w v seen with
        | .error _ => convMethLoop w o rest seen
        | .ok (some d, s2) => .ok (some d, s2)
        | .ok (none, s2) => convMethLoop w o rest s2
    | _ => convMethLoop w o rest seen

/-- The `json()` strategy of `_walk` (lines 182-190): if `o.json` is callable,
call it (a raising call is swallowed) and keep the parse if it is a dict. -/
def jsonStrategy (o : PyVal) : Option FieldMap :=
  match (pgetattr o "json").getD .pnone with
  | .pmeth sv =>
    match json_try_parse sv with
    | some (.pdict kvs) => some kvs
    | _ => none
  | _ => none

/-- `_walk` (lines 138-206), fuel-indexed: `walkN (d + 1) o seen` is
`_walk(o, d)` for `d ≥ 0`, and `walkN 0` is a call at negative depth, which
returns `None` at the depth guard.  The `seen` guard models
`if oid in seen ...; seen.add(oid)` with structural equality standing in for
object identity.  In the `vars(o)` strategy (lines 192-204) the singleton
test `len(v) == 1 and isinstance(next(iter(v.values())), (dict, object))`
always takes the `isinstance` branch when `len(v) == 1`, because every Python
value is an instance of `object`; `vars` raises on non-objects (swallowed,
falling through to `return None`), and a raising inner recursion likewise
skips to the final `return None`. -/
def walkN : Nat → PyVal → List PyVal → WalkRes
  | 0, _, seen => .ok (none, seen)
  | n + 1, o, seen =>
    if pyBeq o .pnone then .ok (none, seen)
    else if seen.any (pyBeq o) then .ok (none, seen)
    else
      let seen1 := o :: seen
      match o with
      | .pdict kvs => .ok (some kvs, seen1)
      | _ =>
        match maplikeTry o with
        | some (some kvs) => .ok (some kvs, seen1)
        | _ =>
          match containerLoop (walkN n) o containerAttrNames seen1 with
          | .error e => .error e
          | .ok (some d, s2) => .ok (some d, s2)
          | .ok (none, s2) =>
            match convMethLoop (walkN n) o convMethNames s2 with
            | .error e => .error e
            | .ok (some d, s3) => .ok (some d, s3)
            | .ok (none, s3) =>
              match jsonStrategy o with
              | some kvs => .ok (some kvs, s3)
              | none =>
                match o with
                | .pobj attrs _ _ =>
                  match attrs with
                  | [] => .ok (none, s3)
                  | [(k1, v1)] =>
                    match walkN n v1 s3 with
                    | .error _ => .ok (none, s3)
                    | .ok (some d, s4) => .ok (some d, s4)
                    | .ok (none, s4) => .ok (some [(k1, v1)], s4)
                  | _ => .ok (some attrs, s3)
                | _ => .ok (none, s3)
termination_by structural n _ _ => n

/-- `obj_to_dict_deep` (lines 132-208): run `_walk` from an empty `seen` set
at the given depth (negative depths return `None` at the guard). -/
def obj_to_dict_deep (o : PyVal) (max_depth : Int) : Except Unit (Option FieldMap) :=
  match walkN (max_depth + 1).toNat o [] with
  | .error e => .error e
  | .ok (d, _) => .ok d

/- ---------------------------------------------------------------------
`extract_id_any` (lines 210-254; the second copy of the body starting at
line 255 is dead code behind the `return None` and is not part of the
function's behavior).
--------------------------------------------------------------------- -/

/-- The ordered identifier-key precedence list (lines 214 and 226). -/
def idKeys : List String :=
  ["jpro_id", "id", "Id", "ID", "profileId", "profileID", "uuid", "uid"]

/-- The nested-section keys (lines 218 and 262). -/
def nestedKeys : List String :=
  ["general", "profile", "configurationProfile", "payloadContent", "data"]

/-- The smaller precedence list used for nested sections, mapping-style `get`
and indexing (lines 221 and 233). -/
def idKeysSmall : List String := ["jpro_id", "id", "uuid", "profileId"]

/-- Top-level scan (lines 214-216): first key that is present with a value
that is neither `None` nor the empty string, stringified.  (Note the guard is
`is not None and != ""`, not truthiness: `0`, `False`, `[]` … pass it.) -/
def scanTopIds (kvs : FieldMap) : Option String :=
  idKeys.findSome? fun k =>
    match plookup kvs k with
    | some v => if pyBeq v .pnone || pyBeq v (.pstr "") then none else some (pyStr v)
    | none => none

/-- Nested scan (lines 218-223): for each nested-section key holding a dict,
first truthy value among the smaller precedence list, stringified. -/
def scanNestedIds (kvs : FieldMap) : Option String :=
  nestedKeys.findSome? fun k =>
    match plookup kvs k with
    | some (.pdict sub) =>
      idKeysSmall.findSome? fun ik =>
        match plookup sub ik with
        | some v => if truthy v then some (pyStr v) else none
        | none => none
    | _ => none

/-- Attribute fallback (lines 226-229): `getattr(item, k, None)`, first truthy
value stringified. -/
def attrScan (item : PyVal) (ks : List String) : Option String :=
  ks.findSome? fun k =>
    let v := (pgetattr item k).getD .pnone
    if truthy v then some (pyStr v) else none

/-- Mapping-style `get` fallback (lines 231-239): if `item.get` is callable,
try `get(k)` for each key, swallowing raising calls, first truthy value
stringified. -/
def getScan (item : PyVal) : Option String :=
  match pgetcall item with
  | some g =>
    idKeysSmall.findSome? fun k =>
      match g k with
      | .error _ => none
      | .ok v => if truthy v then some (pyStr v) else none
  | none => none

/-- Indexing fallback (lines 241-252): `item["jpro_id"]` then `item["id"]`,
each in its own `try`, first truthy value stringified. -/
def indexScan (item : PyVal) : Option String :=
  let tryKey : String → Option String := fun k =>
    match pgetitem item k with
    | .error _ => none
    | .ok v => if truthy v then some (pyStr v) else none
  match tryKey "jpro_id" with
  | some s => some s
  | none => tryKey "id"

/-- `extract_id_any` (lines 210-254).  The probe call is not inside a `try`,
so (hypothetically) an exception from it would propagate. -/
def extract_id_any (item : PyVal) : Except Unit (Option String) :=
  match obj_to_dict_deep item 3 with
  | .error e => .error e
  | .ok d =>
    let fromDict : Option String :=
      match d with
      | some kvs =>
        match scanTopIds kvs with
        | some s => some s
        | none => scanNestedIds kvs
      | none => none
    match fromDict with
    | some s => .ok (some s)
    | none =>
      match attrScan item idKeys with
      | some s => .ok (some s)
      | none =>
        match getScan item with
        | some s => .ok (some s)
        | none => .ok (indexScan item)

/- ---------------------------------------------------------------------
`extract_name_any` (lines 294-309).
--------------------------------------------------------------------- -/

/-- The name-key precedence list (line 297). -/
def nameKeys : List String :=
  ["name", "displayName", "profileName", "computer_group_name", "generalName"]

/-- The attribute-fallback name keys (line 305). -/
def nameAttrKeys : List String := ["name", "displayName", "profileName"]

/-- `extract_name_any` (lines 294-309): probe, scan the name keys by
truthiness (`if d.get(k):`), then the nested sections for a truthy `name`,
then attribute fallback, and finally the synthetic `id_<fallback_id>`;
whatever raw value is chosen goes through `sanitize_name`. -/
def extract_name_any (item : PyVal) (fallback_id : String) : Except Unit String :=
  match obj_to_dict_deep item 3 with
  | .error e => .error e
  | .ok d =>
    let fromDict : Option String :=
      match d with
      | some kvs =>
        match nameKeys.findSome? (fun k =>
            match plookup kvs k with
            | some v => if truthy v then some (sanitize_name v) else none
            | none => none) with
        | some s => some s
        | none =>
          nestedKeys.findSome? fun k =>
            match plookup kvs k with
            | some (.pdict sub) =>
              match plookup sub "name" with
              | some v => if truthy v then some (sanitize_name v) else none
              | none => none
            | _ => none
      | none => none
    match fromDict with
    | some s => .ok s
    | none =>
      match nameAttrKeys.findSome? (fun k =>
          let v := (pgetattr item k).getD .pnone
          if truthy v then some (sanitize_name v) else none) with
      | some s => .ok s
      | none => .ok (sanitize_name (.pstr ("id_" ++ fallback_id)))

/- ---------------------------------------------------------------------
Kind classifier: `TERRAFORM_TYPE_MAP` (lines 312-321) and `detect_tag`
(lines 365-371).
--------------------------------------------------------------------- -/

/-- `TERRAFORM_TYPE_MAP` (lines 312-321), in insertion order. -/
def TERRAFORM_TYPE_MAP : List (String × String) :=
  [("MACOS_CONFIG_PROFILE", "jamfpro_macos_configuration_profile_plist"),
   ("SCRIPT", "jamfpro_script"),
   ("CATEGORY", "jamfpro_category"),
   ("POLICY", "jamfpro_policy"),
   ("STATIC_COMPUTER_GROUP", "jamfpro_static_computer_group"),
   ("SMART_COMPUTER_GROUP", "jamfpro_smart_computer_group"),
   ("ADVANCED_COMPUTER_SEARCH", "jamfpro_advanced_computer_search"),
   ("COMPUTER_EXTENSION_ATTRIBUTE", "jamfpro_computer_extension_attribute")]

/-- Helper: is `needle` an infix of `hay`? -/
def listInfix (needle : List Char) : List Char → Bool
  | [] => needle.isEmpty
  | c :: rest => needle.isPrefixOf (c :: rest) || listInfix needle rest

/-- Models Python substring containment `needle in hay`. -/
def strContains (hay needle : String) : Bool :=
  listInfix needle.toList hay.toList

/-- The classification loop of `compose_import_hcl` (lines 383-387): first
table key contained in the tag wins (dict iteration order = insertion
order). -/
def classifyTag (tag : String) : Option String :=
  (TERRAFORM_TYPE_MAP.find? fun kv => strContains tag kv.1).map (·.2)

/-- The alternation of the `re.search` in `detect_tag` (line 370), in
pattern order. -/
def tagTokens : List String :=
  ["MACOS_CONFIG_PROFILE", "SCRIPT", "CATEGORY", "POLICY", "STATIC_COMPUTER_GROUP",
   "SMART_COMPUTER_GROUP", "ADVANCED_COMPUTER_SEARCH", "COMPUTER_EXTENSION_ATTRIBUTE"]

/-- Models `re.search` with a plain alternation of literals: the match at the
leftmost starting position wins, alternation order breaking ties at the same
position. -/
def reSearchAlts (alts : List String) : List Char → Option String
  | [] =>
    match alts.find? fun a => a.toList.isPrefixOf ([] : List Char) with
    | some a => some a
    | none => none
  | c :: rest =>
    match alts.find? fun a => a.toList.isPrefixOf (c :: rest) with
    | some a => some a
    | none => reSearchAlts alts rest

/-- `detect_tag` (lines 365-371): read `resource_type`, falling back to
`provider_tag` when it is `None`; stringify; return the first alternation
token found in it, or the whole string when none matches. -/
def detect_tag (res : PyVal) : String :=
  let tag := (pgetattr res "resource_type").getD .pnone
  let tag := if pyBeq tag .pnone then (pgetattr res "provider_tag").getD .pnone else tag
  let tagStr := pyStr tag
  match reSearchAlts tagTokens tagStr.toList with
  | some t => t
  | none => tagStr

/- ---------------------------------------------------------------------
`iter_items_from_resource` (lines 323-363).
--------------------------------------------------------------------- -/

/-- The candidate accessor fields (line 328). -/
def candAttrNames : List String := ["data", "_data", "dataset", "items", "all"]

/-- The getter-method names (line 351). -/
def getterMethNames : List String := ["get_all", "to_list", "list", "all"]

/-- The body shared by both loops when a callable was called and returned
`val` (lines 334-338 and 355-359): a list is returned as is, another
iterable is materialized with `list(val)` (a raising materialization is
swallowed), anything else finds nothing. -/
def callResultItems (val : PyVal) : Option (List PyVal) :=
  match val with
  | .plist xs => some xs
  | val =>
    if isIterable val then
      match pyListE val with
      | .ok l => some l
      | .error _ => none
    else none

/-- The candidate-field loop (lines 329-348): for each field, try a callable
field's result (lines 332-340), then a direct list (line 342), then any
other non-`None` iterable that is not a `str`/`bytes`/`dict` (lines
344-348). -/
def candLoop (res : PyVal) : List String → Option (List PyVal)
  | [] => none
  | a :: rest =>
    let obj := (pgetattr res a).getD .pnone
    let fromCall : Option (List PyVal) :=
      match obj with
      | .pmeth val => callResultItems val
      | _ => none
    match fromCall with
    | some l => some l
    | none =>
      match obj with
      | .plist xs => some xs
      | .pstr _ => candLoop res rest
      | .pbytes _ => candLoop res rest
      | .pdict _ => candLoop res rest
      | .pnone => candLoop res rest
      | obj =>
        if isIterable obj then
          match pyListE obj with
          | .ok l => some l
          | .error _ => candLoop res rest
        else candLoop res rest

/-- The getter-method loop (lines 351-361). -/
def getterLoop (res : PyVal) : List String → Option (List PyVal)
  | [] => none
  | m :: rest =>
    match (pgetattr res m).getD .pnone with
    | .pmeth val =>
      match callResultItems val with
      | some l => some l
      | none => getterLoop res rest
    | _ => getterLoop res rest

/-- `iter_items_from_resource` (lines 323-363).  Every raising operation it
performs is inside a `try`, so the function is total. -/
def iter_items_from_resource (res : PyVal) : List PyVal :=
  match candLoop res candAttrNames with
  | some l => l
  | none =>
    match getterLoop res getterMethNames with
    | some l => l
    | none => []

/- ---------------------------------------------------------------------
`compose_import_hcl` (lines 373-421).
--------------------------------------------------------------------- -/

/-- `dump_cap` (line 377). -/
def dump_cap : Nat := 20

/-- The mutable state of the compile loop: the accumulated `blocks` list, the
`dumped` counter and the lines written to the sample sink (modelled as a pure
list; file-system write failures are outside the model). -/
structure CState where
  blocks : List String
  dumped : Nat
  dumpLines : List String

/-- The sample record dumped for an item (line 401):
`d if d is not None else {"repr": repr(item)}`. -/
def dumpRecord (d : Option FieldMap) (item : PyVal) : PyVal :=
  match d with
  | some kvs => .pdict kvs
  | none => .pdict [("repr", .pstr (pyRepr item))]

/-- The per-item body of `compose_import_hcl` (lines 397-415): optionally
dump a sample (the probe, serialization and write are inside a `try`; failure
is swallowed and does not advance the counter), then extract the identifier
(not inside a `try`), emit a diagnostic when it is falsy, otherwise resolve
the name and emit the import block. -/
def processItem (dumping : Bool) (tf_type tag : String) (st : CState) (item : PyVal) :
    Except Unit CState := do
  let st ←
    if dumping && st.dumped < dump_cap then
      match obj_to_dict_deep item 3 with
      | .error _ => pure st
      | .ok d =>
        match jsonDumps (dumpRecord d item) with
        | some line =>
          pure { st with dumped := st.dumped + 1, dumpLines := st.dumpLines ++ [line] }
        | none => pure st
    else pure st
  match extract_id_any item with
  | .error e => .error e
  | .ok rid =>
    let ridStr := rid.getD ""
    if ridStr == "" then
      pure { st with blocks :=
        st.blocks ++ ["# Could not extract id for item in " ++ tag ++ ": " ++ pyRepr item] }
    else
      match extract_name_any item ridStr with
      | .error e => .error e
      | .ok localName =>
        pure { st with blocks := st.blocks ++
          ["import \x7b\n  id = \"" ++ ridStr ++ "\"\n  to = " ++ tf_type ++ "." ++ localName ++ "\n\x7d"] }

/-- The per-resource body of `compose_import_hcl` (lines 381-415): detect and
classify the tag (one diagnostic and skip on failure), fetch the items (one
diagnostic and skip when empty), then process each item in order. -/
def processRes (dumping : Bool) (st : CState) (res : PyVal) : Except Unit CState :=
  let tag := detect_tag res
  match classifyTag tag with
  | none => pure { st with blocks := st.blocks ++ ["# Skipping unsupported resource tag: " ++ tag] }
  | some tf_type =>
    let items := iter_items_from_resource res
    if items.isEmpty then
      pure { st with blocks := st.blocks ++ ["# No items found for " ++ tag] }
    else
      items.foldlM (processItem dumping tf_type tag) st

/-- `compose_import_hcl` (lines 373-421): fold the per-resource body over the
groups and join (`"\n\n".join(blocks) + ("\n" if blocks else "")`).  The
sample sink is modelled by the `dumping` flag plus the returned list of
written lines. -/
def compose_import_hcl (resources : List PyVal) (dumping : Bool) :
    Except Unit (String × List String) := do
  let st ← resources.foldlM (processRes dumping) ⟨[], 0, []⟩
  pure (String.intercalate "\n\n" st.blocks ++ (if st.blocks.isEmpty then "" else "\n"),
        st.dumpLines)

/- ---------------------------------------------------------------------
Totality of the prober and the compile pass (no exception escapes).
--------------------------------------------------------------------- -/

/-- Unwrap an `Except` that is known (or defaulted) to be `ok`. -/
def exOk (e : Except Unit α) (dflt : α) : α :=
  match e with
  | .ok a => a
  | .error _ => dflt

/- ---------------------------------------------------------------------
Pure decompositions of the compile pass: the entries (blocks and
diagnostics) each group contributes, and the sample-dump accounting.
--------------------------------------------------------------------- -/

/-- The entries (import block or diagnostic) one item contributes. -/
def itemEntries (tf_type tag : String) (item : PyVal) : List String :=
  let ridStr := (exOk (extract_id_any item) none).getD ""
  if ridStr == "" then
    ["# Could not extract id for item in " ++ tag ++ ": " ++ pyRepr item]
  else
    ["import \x7b\n  id = \"" ++ ridStr ++ "\"\n  to = " ++ tf_type ++ "." ++
      exOk (extract_name_any item ridStr) "" ++ "\n\x7d"]

/-- The entries one resource group contributes, in order. -/
def groupEntries (res : PyVal) : List String :=
  let tag := detect_tag res
  match classifyTag tag with
  | none => ["# Skipping unsupported resource tag: " ++ tag]
  | some tf_type =>
    let items := iter_items_from_resource res
    if items.isEmpty then ["# No items found for " ++ tag]
    else items.flatMap (itemEntries tf_type tag)

/-- All entries of a run, group order preserved. -/
def runEntries (resources : List PyVal) : List String :=
  resources.flatMap groupEntries

/-- Does the sample dump of this item succeed (probe record, or its textual
fallback, JSON-serializable)? -/
def dumpOk (item : PyVal) : Bool :=
  (jsonDumps (dumpRecord (exOk (obj_to_dict_deep item 3) none) item)).isSome

/-- The sample line an item would write. -/
def dumpLineOf (item : PyVal) : String :=
  (jsonDumps (dumpRecord (exOk (obj_to_dict_deep item 3) none) item)).getD ""

/-- How many items of one group are reached by the sample-dump attempt and
serialize (groups that fail classification or are empty contribute none). -/
def groupDumpable (res : PyVal) : Nat :=
  match classifyTag (detect_tag res) with
  | none => 0
  | some _ =>
    let items := iter_items_from_resource res
    if items.isEmpty then 0 else (items.filter dumpOk).length

/-- Total serializable dump attempts of a run. -/
def runDumpable (resources : List PyVal) : Nat :=
  (resources.map groupDumpable).sum

/-- Items of classified, non-empty groups (the items the compile pass
iterates over). -/
def groupItemCount (res : PyVal) : Nat :=
  match classifyTag (detect_tag res) with
  | none => 0
  | some _ => (iter_items_from_resource res).length

def runItemCount (resources : List PyVal) : Nat :=
  (resources.map groupItemCount).sum

/-- The pure effect of `processItem` on the state. -/
def stepItem (dumping : Bool) (tf_type tag : String) (st : CState) (item : PyVal) : CState :=
  let doDump := dumping && st.dumped < dump_cap && dumpOk item
  { blocks := st.blocks ++ itemEntries tf_type tag item,
    dumped := if doDump then st.dumped + 1 else st.dumped,
    dumpLines := if doDump then st.dumpLines ++ [dumpLineOf item] else st.dumpLines }

/-- The pure effect of `processRes` on the state. -/
def stepRes (dumping : Bool) (st : CState) (res : PyVal) : CState :=
  let tag := detect_tag res
  match classifyTag tag with
  | none => { st with blocks := st.blocks ++ ["# Skipping unsupported resource tag: " ++ tag] }
  | some tf_type =>
    let items := iter_items_from_resource res
    if items.isEmpty then { st with blocks := st.blocks ++ ["# No items found for " ++ tag] }
    else items.foldl (stepItem dumping tf_type tag) st

/-- Rendering of the entries list (line 421):
`"\n\n".join(blocks) + ("\n" if blocks else "")`. -/
def renderEntries (es : List String) : String :=
  String.intercalate "\n\n" es ++ (if es.isEmpty then "" else "\n")

/- ---------------------------------------------------------------------
Sanitizer totality.
--------------------------------------------------------------------- -/

/-- Decides the spec pattern for a local name: non-empty, first character in
`[a-z_]`, every character in `[a-z0-9_]` (i.e. `^[a-z_][a-z0-9_]*$`). -/
def isTfLocalName (s : String) : Bool :=
  match s.toList with
  | [] => false
  | c :: rest => (c.isLower || c == '_') && rest.all goodChar

/- ---------------------------------------------------------------------
Falsy-candidate predicates for the identifier extractor.
--------------------------------------------------------------------- -/

/-- Every precedence key bound in the map is bound to `None` or `""` (the only
two values the top-level scan skips). -/
def dictIdsNoneOrEmpty (kvs : FieldMap) : Bool :=
  idKeys.all fun k =>
    match plookup kvs k with
    | some v => pyBeq v .pnone || pyBeq v (.pstr "")
    | none => true

/-- Every nested-section sub-mapping binds the smaller precedence keys only to
falsy values. -/
def nestedIdsFalsy (kvs : FieldMap) : Bool :=
  nestedKeys.all fun k =>
    match plookup kvs k with
    | some (.pdict sub) =>
      idKeysSmall.all fun ik =>
        match plookup sub ik with
        | some v => !truthy v
        | none => true
    | _ => true

/-- The record's probed map (when there is one) offers no identifier the
two dict scans accept. -/
def probeIdsAbsent (item : PyVal) : Bool :=
  match exOk (obj_to_dict_deep item 3) none with
  | some kvs => dictIdsNoneOrEmpty kvs && nestedIdsFalsy kvs
  | none => true

/-- Direct attribute access yields only falsy values for the precedence keys. -/
def attrIdsFalsy (item : PyVal) : Bool :=
  idKeys.all fun k => !truthy ((pgetattr item k).getD .pnone)

/-- Mapping-style `get` (when callable) yields only falsy values (or raises). -/
def getIdsFalsy (item : PyVal) : Bool :=
  match pgetcall item with
  | some g =>
    idKeysSmall.all fun k =>
      match g k with
      | .ok v => !truthy v
      | .error _ => true
  | none => true

/-- Indexing yields only falsy values (or raises) for `jpro_id` and `id`. -/
def indexIdsFalsy (item : PyVal) : Bool :=
  ["jpro_id", "id"].all fun k =>
    match pgetitem item k with
    | .ok v => !truthy v
    | .error _ => true

/-- A value that is `None`, a string, bytes or a dict (the shapes the
candidate-field loop skips when held directly by a field). -/
def scalarFieldVal : PyVal → Bool
  | .pnone => true
  | .pstr _ => true
  | .pbytes _ => true
  | .pdict _ => true
  | _ => false

/-- Every resolvable candidate accessor field holds `None`, a string, bytes or
a dict. -/
def candFieldsScalar (res : PyVal) : Bool :=
  candAttrNames.all fun a => scalarFieldVal ((pgetattr res a).getD .pnone)

/-- None of the getter-method names resolves to a callable. -/
def noGetterCallables (res : PyVal) : Bool :=
  getterMethNames.all fun m =>
    match (pgetattr res m).getD .pnone with
    | .pmeth _ => false
    | .pmethRaise => false
    | _ => true

instance [DecidableEq ε] [DecidableEq α] : DecidableEq (Except ε α) := fun x y =>
  match x, y with
  | .ok a, .ok b =>
    if h : a = b then isTrue (by rw [h]) else isFalse fun hc => h (Except.ok.inj hc)
  | .error a, .error b =>
    if h : a = b then isTrue (by rw [h]) else isFalse fun hc => h (Except.error.inj hc)
  | .ok _, .error _ => isFalse fun hc => Except.noConfusion hc
  | .error _, .ok _ => isFalse fun hc => Except.noConfusion hc

/- ---------------------------------------------------------------------
Inputs for the concrete end-to-end runs.
--------------------------------------------------------------------- -/

/-- The spec's end-to-end example run: a `SCRIPT` group with one record
`{"id": "1", "name": "My Script!"}` and an empty `CATEGORY` group. -/
def c1Run : List PyVal :=
  [.pobj [("resource_type", .pstr "SCRIPT"),
          ("data", .plist [.pdict [("id", .pstr "1"), ("name", .pstr "My Script!")]])]
     .pnone .pnone,
   .pobj [("resource_type", .pstr "CATEGORY"), ("data", .plist [])] .pnone .pnone]

/-- A run of one classified `SCRIPT` group holding 50 records whose probed
field map contains a bytes value, which `json.dumps` cannot serialize. -/
def c7Run : List PyVal :=
  [.pobj [("resource_type", .pstr "SCRIPT"),
          ("data", .plist (List.replicate 50 (.pdict [("id", .pbytes "z")])))]
     .pnone .pnone]

def c6A : List PyVal :=
  [.pobj [("resource_type", .pstr "SCRIPT"),
          ("data", .plist [.pdict [("id", .pstr "5"), ("name", .pstr "aa")]])] .pnone .pnone]

def c6Bad : PyVal := .pobj [("resource_type", .pstr "UNKNOWN_TYPE")] .pnone .pnone

def c6B : List PyVal :=
  [.pobj [("resource_type", .pstr "CATEGORY"), ("data", .plist [])] .pnone .pnone]

/- =====================================================================
Theorems.
===================================================================== -/

theorem sanity1 : sanitize_name (.pstr "My Script!") = "my_script" := by decide

theorem sanity2 : sanitize_name (.pstr "  9 Lives!  ") = "r_9_lives" := by decide

theorem sanity3 : sanitize_name (.pstr "héllo") = "h_llo" := by decide

theorem sanity4 : sanitize_name (.pstr "!!") = "r" := by decide

theorem sanity5 : sanitize_name (.pstr "a__b") = "a__b" := by decide

theorem sanity6 : jsonLoads "\x7b\"id\": 3, \"xs\": [true, null, \"a\"]\x7d"
    = some (.pdict [("id", .pint 3), ("xs", .plist [.pbool true, .pnone, .pstr "a"])]) := rfl

theorem sanity7 : obj_to_dict_deep (.pdict [("id", .pint 1)]) 3 = .ok (some [("id", .pint 1)]) := rfl

theorem sanity8 : obj_to_dict_deep (.pobj [("data", .pdict [("id", .pint 2)])] .pnone .pnone) 3
    = .ok (some [("id", .pint 2)]) := rfl

theorem sanity9 : obj_to_dict_deep (.pobj [("to_dict", .pmeth (.pdict [("a", .pnone)]))] .pnone .pnone) 3
    = .ok (some [("a", .pnone)]) := rfl

theorem sanity10 : obj_to_dict_deep (.pobj [("json", .pmeth (.pstr "\x7b\"id\": 7\x7d"))] .pnone .pnone) 3
    = .ok (some [("id", .pint 7)]) := rfl

theorem sanity11 : obj_to_dict_deep (.pobj [("x", .pint 1), ("y", .pint 2)] .pnone .pnone) 3
    = .ok (some [("x", .pint 1), ("y", .pint 2)]) := rfl

theorem sanity12 : obj_to_dict_deep (.pobj [("wrap", .pobj [("a", .pint 1), ("b", .pint 2)] .pnone .pnone)] .pnone .pnone) 3
    = .ok (some [("a", .pint 1), ("b", .pint 2)]) := rfl

theorem sanity13 : obj_to_dict_deep (.pstr "zzz") 3 = .ok none := rfl

theorem sanity14 : obj_to_dict_deep (.pdict [("id", .pint 1)]) (-2) = .ok none := rfl

theorem sanity15 : extract_id_any (.pdict [("id", .pstr "1"), ("name", .pstr "x")]) = .ok (some "1") := rfl

theorem sanity16 : extract_id_any (.pdict [("id", .pint 0)]) = .ok (some "0") := rfl

theorem sanity17 : extract_id_any (.pdict [("name", .pstr "x")]) = .ok none := rfl

theorem sanity18 : extract_id_any (.pdict [("general", .pdict [("uuid", .pstr "u-1")])]) = .ok (some "u-1") := rfl

theorem sanity19 : extract_id_any (.pobj [("uid", .pint 9)] .pnone .pnone) = .ok (some "9") := rfl

theorem sanity20 : extract_name_any (.pdict [("name", .pstr "My Script!")]) "1" = .ok "my_script" := rfl

theorem sanity21 : extract_name_any (.pdict [("x", .pint 1)] ) "42" = .ok "id_42" := rfl

theorem sanity22 : extract_name_any (.pdict [("general", .pdict [("name", .pstr "A B")])]) "1" = .ok "a_b" := rfl

theorem sanity23 : detect_tag (.pobj [("resource_type", .pstr "SCRIPT")] .pnone .pnone) = "SCRIPT" := rfl

theorem sanity24 : detect_tag (.pobj [("provider_tag", .pstr "x.SCRIPT.y")] .pnone .pnone) = "SCRIPT" := rfl

theorem sanity25 : detect_tag (.pobj [("resource_type", .pstr "UNKNOWN_TYPE")] .pnone .pnone)
    = "UNKNOWN_TYPE" := rfl

theorem sanity26 : detect_tag (.pobj [] .pnone .pnone) = "None" := rfl

theorem sanity27 : classifyTag "STATIC_COMPUTER_GROUP" = some "jamfpro_static_computer_group" := rfl

theorem sanity28 : classifyTag "UNKNOWN_TYPE" = none := rfl

theorem sanity29 : iter_items_from_resource (.pobj [("data", .plist [.pint 1])] .pnone .pnone)
    = [.pint 1] := rfl

theorem sanity30 : iter_items_from_resource (.pobj [("data", .pstr "ab")] .pnone .pnone) = [] := rfl

theorem sanity31 : iter_items_from_resource (.pobj [("data", .pmeth (.pstr "ab"))] .pnone .pnone)
    = [.pstr "a", .pstr "b"] := rfl

theorem sanity32 : iter_items_from_resource (.pobj [("dataset", .pobj [] .pnone (.plist [.pint 7]))] .pnone .pnone)
    = [.pint 7] := rfl

theorem sanity33 : iter_items_from_resource (.pobj [("get_all", .pmeth (.plist [.pint 3]))] .pnone .pnone)
    = [.pint 3] := rfl

theorem sanity34 : iter_items_from_resource (.pobj [] .pnone .pnone) = [] := rfl

theorem sanity35 :
    compose_import_hcl
      [.pobj [("resource_type", .pstr "SCRIPT"),
              ("data", .plist [.pdict [("id", .pstr "1"), ("name", .pstr "My Script!")]])] .pnone .pnone,
       .pobj [("resource_type", .pstr "CATEGORY"), ("data", .plist [])] .pnone .pnone] false
    = .ok ("import \x7b\n  id = \"1\"\n  to = jamfpro_script.my_script\n\x7d\n\n# No items found for CATEGORY\n", []) := rfl

theorem sanity36 : compose_import_hcl [] false = .ok ("", []) := rfl

theorem sanity37 :
    compose_import_hcl [.pobj [("resource_type", .pstr "UNKNOWN_TYPE")] .pnone .pnone] false
    = .ok ("# Skipping unsupported resource tag: UNKNOWN_TYPE\n", []) := rfl

theorem containerLoop_ok (w : PyVal → List PyVal → WalkRes)
    (hw : ∀ v s, ∃ r, w v s = .ok r) (o : PyVal) :
    ∀ (as : List String) (seen : List PyVal), ∃ r, containerLoop w o as seen = .ok r := by
  intro as
  induction as with
  | nil => intro seen; exact ⟨(none, seen), rfl⟩
  | cons a rest ih =>
    intro seen
    simp only [containerLoop]
    split
    · exact ⟨_, rfl⟩
    · exact ih seen
    · obtain ⟨r, hr⟩ := hw ((pgetattr o a).getD .pnone) seen
      rw [hr]
      rcases r with ⟨_ | d, s2⟩
      · exact ih s2
      · exact ⟨_, rfl⟩

theorem convMethLoop_ok (w : PyVal → List PyVal → WalkRes) (o : PyVal) :
    ∀ (ms : List String) (seen : List PyVal), ∃ r, convMethLoop w o ms seen = .ok r := by
  intro ms
  induction ms with
  | nil => intro seen; exact ⟨(none, seen), rfl⟩
  | cons m rest ih =>
    intro seen
    simp only [convMethLoop]
    split
    · exact ih seen
    · split
      · exact ⟨_, rfl⟩
      · split
        · exact ih seen
        · exact ⟨_, rfl⟩
        · exact ih _
    · exact ih seen

theorem walkN_ok : ∀ (n : Nat) (o : PyVal) (seen : List PyVal), ∃ r, walkN n o seen = .ok r := by
  intro n
  induction n with
  | zero => intro o seen; exact ⟨(none, seen), rfl⟩
  | succ n ih =>
    intro o seen
    simp only [walkN]
    split
    · exact ⟨_, rfl⟩
    · split
      · exact ⟨_, rfl⟩
      · split
        · exact ⟨_, rfl⟩
        · split
          · exact ⟨_, rfl⟩
          · split
            · rename_i heq
              obtain ⟨r, hr⟩ := containerLoop_ok (walkN n) ih o containerAttrNames (o :: seen)
              rw [hr] at heq
              exact Except.noConfusion heq
            · exact ⟨_, rfl⟩
            · split
              · rename_i heq
                obtain ⟨r, hr⟩ := convMethLoop_ok (walkN n) o convMethNames _
                rw [hr] at heq
                exact Except.noConfusion heq
              · exact ⟨_, rfl⟩
              · split
                · exact ⟨_, rfl⟩
                · split
                  · split
                    · exact ⟨_, rfl⟩
                    · split
                      · exact ⟨_, rfl⟩
                      · exact ⟨_, rfl⟩
                      · exact ⟨_, rfl⟩
                    · exact ⟨_, rfl⟩
                  · exact ⟨_, rfl⟩

theorem obj_to_dict_deep_ok (o : PyVal) (d : Int) :
    ∃ r, obj_to_dict_deep o d = .ok r := by
  obtain ⟨⟨fm, s⟩, hr⟩ := walkN_ok (d + 1).toNat o []
  exact ⟨fm, by simp only [obj_to_dict_deep, hr]⟩

theorem extract_id_any_ok (item : PyVal) : ∃ r, extract_id_any item = .ok r := by
  obtain ⟨fm, h⟩ := obj_to_dict_deep_ok item 3
  simp only [extract_id_any, h]
  split
  · exact ⟨_, rfl⟩
  · split
    · exact ⟨_, rfl⟩
    · split
      · exact ⟨_, rfl⟩
      · exact ⟨_, rfl⟩

theorem extract_name_any_ok (item : PyVal) (fid : String) :
    ∃ r, extract_name_any item fid = .ok r := by
  obtain ⟨fm, h⟩ := obj_to_dict_deep_ok item 3
  simp only [extract_name_any, h]
  split
  · exact ⟨_, rfl⟩
  · split
    · exact ⟨_, rfl⟩
    · exact ⟨_, rfl⟩

theorem processItem_eq (dumping : Bool) (tf_type tag : String) (st : CState) (item : PyVal) :
    processItem dumping tf_type tag st item = .ok (stepItem dumping tf_type tag st item) := by
  obtain ⟨fm, hfm⟩ := obj_to_dict_deep_ok item 3
  obtain ⟨rid, hrid⟩ := extract_id_any_ok item
  obtain ⟨nm, hnm⟩ := extract_name_any_ok item (rid.getD "")
  simp only [processItem, stepItem, dumpOk, dumpLineOf, itemEntries, hfm, hrid, exOk]
  by_cases hd : (dumping && decide (st.dumped < dump_cap)) = true
  · rw [if_pos hd, hd, Bool.true_and]
    cases hjs : jsonDumps (dumpRecord fm item) with
    | none =>
      simp only [hjs, Option.isSome_none, Bool.false_eq_true, if_false]
      cases hrs : (rid.getD "" == "") with
      | true => simp only [hrs, if_true]; rfl
      | false => simp only [hrs, Bool.false_eq_true, if_false, hnm]; rfl
    | some line =>
      simp only [hjs, Option.isSome_some, Option.getD_some, if_true]
      cases hrs : (rid.getD "" == "") with
      | true => simp only [hrs, if_true]; rfl
      | false => simp only [hrs, Bool.false_eq_true, if_false, hnm]; rfl
  · rw [if_neg hd]
    have hd1 : (dumping && decide (st.dumped < dump_cap)) = false := by
      cases h1 : (dumping && decide (st.dumped < dump_cap)) with
      | true => exact absurd h1 hd
      | false => rfl
    rw [hd1, Bool.false_and]
    simp only [Bool.false_eq_true, if_false]
    cases hrs : (rid.getD "" == "") with
    | true => simp only [hrs, if_true]; rfl
    | false => simp only [hrs, Bool.false_eq_true, if_false, hnm]; rfl

theorem foldlM_processItem (dumping : Bool) (tf_type tag : String) :
    ∀ (items : List PyVal) (st : CState),
      items.foldlM (processItem dumping tf_type tag) st
        = .ok (items.foldl (stepItem dumping tf_type tag) st) := by
  intro items
  induction items with
  | nil => intro st; rfl
  | cons item rest ih =>
    intro st
    rw [List.foldlM_cons, processItem_eq, List.foldl_cons]
    exact ih _

theorem processRes_eq (dumping : Bool) (st : CState) (res : PyVal) :
    processRes dumping st res = .ok (stepRes dumping st res) := by
  simp only [processRes, stepRes]
  split
  · rfl
  · split
    · rfl
    · exact foldlM_processItem _ _ _ _ _

theorem foldlM_processRes (dumping : Bool) :
    ∀ (resources : List PyVal) (st : CState),
      resources.foldlM (processRes dumping) st
        = .ok (resources.foldl (stepRes dumping) st) := by
  intro resources
  induction resources with
  | nil => intro st; rfl
  | cons res rest ih =>
    intro st
    rw [List.foldlM_cons, processRes_eq, List.foldl_cons]
    exact ih _

theorem foldl_stepItem_blocks (dumping : Bool) (tf_type tag : String) :
    ∀ (items : List PyVal) (st : CState),
      (items.foldl (stepItem dumping tf_type tag) st).blocks
        = st.blocks ++ items.flatMap (itemEntries tf_type tag) := by
  intro items
  induction items with
  | nil => intro st; simp
  | cons item rest ih =>
    intro st
    rw [List.foldl_cons, ih, List.flatMap_cons]
    simp [stepItem, List.append_assoc]

theorem stepRes_blocks (dumping : Bool) (st : CState) (res : PyVal) :
    (stepRes dumping st res).blocks = st.blocks ++ groupEntries res := by
  simp only [stepRes, groupEntries]
  split
  · rfl
  · split
    · rfl
    · exact foldl_stepItem_blocks _ _ _ _ _

theorem foldl_stepRes_blocks (dumping : Bool) :
    ∀ (resources : List PyVal) (st : CState),
      (resources.foldl (stepRes dumping) st).blocks = st.blocks ++ runEntries resources := by
  intro resources
  induction resources with
  | nil => intro st; simp [runEntries]
  | cons res rest ih =>
    intro st
    rw [List.foldl_cons, ih, stepRes_blocks]
    simp [runEntries, List.append_assoc]

theorem compose_eq (resources : List PyVal) (dumping : Bool) :
    compose_import_hcl resources dumping
      = .ok (renderEntries (runEntries resources),
             (resources.foldl (stepRes dumping) ⟨[], 0, []⟩).dumpLines) := by
  simp only [compose_import_hcl, foldlM_processRes, renderEntries]
  have hb := foldl_stepRes_blocks dumping resources ⟨[], 0, []⟩
  simp only [List.nil_append] at hb
  show Except.ok _ = _
  rw [Except.ok.injEq, Prod.mk.injEq, hb]
  exact ⟨rfl, rfl⟩

theorem foldl_stepItem_dump (tf_type tag : String) :
    ∀ (items : List PyVal) (st : CState), st.dumped ≤ dump_cap →
      st.dumpLines.length = st.dumped →
      (items.foldl (stepItem true tf_type tag) st).dumped
          = min dump_cap (st.dumped + (items.filter dumpOk).length)
        ∧ (items.foldl (stepItem true tf_type tag) st).dumpLines.length
          = (items.foldl (stepItem true tf_type tag) st).dumped
        ∧ (items.foldl (stepItem true tf_type tag) st).dumped ≤ dump_cap := by
  intro items
  induction items with
  | nil =>
    intro st hle hlen
    simp only [List.foldl_nil, List.filter_nil, List.length_nil, Nat.add_zero]
    exact ⟨by omega, hlen, hle⟩
  | cons item rest ih =>
    intro st hle hlen
    rw [List.foldl_cons]
    cases hok : dumpOk item with
    | true =>
      by_cases hlt : st.dumped < dump_cap
      · have hstep : stepItem true tf_type tag st item
            = { blocks := st.blocks ++ itemEntries tf_type tag item,
                dumped := st.dumped + 1, dumpLines := st.dumpLines ++ [dumpLineOf item] } := by
          simp [stepItem, hok, hlt]
        rw [hstep]
        have := ih { blocks := st.blocks ++ itemEntries tf_type tag item,
                     dumped := st.dumped + 1, dumpLines := st.dumpLines ++ [dumpLineOf item] }
          (by simpa using hlt) (by simp [hlen])
        refine ⟨?_, this.2.1, this.2.2⟩
        rw [this.1]
        simp only [List.filter_cons, hok, if_true, List.length_cons]
        omega
      · have hstep : stepItem true tf_type tag st item
            = { blocks := st.blocks ++ itemEntries tf_type tag item,
                dumped := st.dumped, dumpLines := st.dumpLines } := by
          simp [stepItem, hlt]
        rw [hstep]
        have := ih { blocks := st.blocks ++ itemEntries tf_type tag item,
                     dumped := st.dumped, dumpLines := st.dumpLines } hle hlen
        refine ⟨?_, this.2.1, this.2.2⟩
        rw [this.1]
        simp only [List.filter_cons, hok, if_true, List.length_cons]
        omega
    | false =>
      have hstep : stepItem true tf_type tag st item
          = { blocks := st.blocks ++ itemEntries tf_type tag item,
              dumped := st.dumped, dumpLines := st.dumpLines } := by
        simp [stepItem, hok]
      rw [hstep]
      have := ih { blocks := st.blocks ++ itemEntries tf_type tag item,
                   dumped := st.dumped, dumpLines := st.dumpLines } hle hlen
      refine ⟨?_, this.2.1, this.2.2⟩
      rw [this.1]
      simp only [List.filter_cons, hok]
      rfl

theorem stepRes_dump (st : CState) (res : PyVal) (hle : st.dumped ≤ dump_cap)
    (hlen : st.dumpLines.length = st.dumped) :
    (stepRes true st res).dumped = min dump_cap (st.dumped + groupDumpable res)
      ∧ (stepRes true st res).dumpLines.length = (stepRes true st res).dumped
      ∧ (stepRes true st res).dumped ≤ dump_cap := by
  simp only [stepRes, groupDumpable]
  split
  · simp only [Nat.add_zero]
    exact ⟨by omega, hlen, hle⟩
  · split
    · simp only [Nat.add_zero]
      exact ⟨by omega, hlen, hle⟩
    · exact foldl_stepItem_dump _ _ _ st hle hlen

theorem foldl_stepRes_dump :
    ∀ (resources : List PyVal) (st : CState), st.dumped ≤ dump_cap →
      st.dumpLines.length = st.dumped →
      (resources.foldl (stepRes true) st).dumped
          = min dump_cap (st.dumped + runDumpable resources)
        ∧ (resources.foldl (stepRes true) st).dumpLines.length
          = (resources.foldl (stepRes true) st).dumped
        ∧ (resources.foldl (stepRes true) st).dumped ≤ dump_cap := by
  intro resources
  induction resources with
  | nil =>
    intro st hle hlen
    simp only [List.foldl_nil, runDumpable, List.map_nil, List.sum_nil, Nat.add_zero]
    exact ⟨by omega, hlen, hle⟩
  | cons res rest ih =>
    intro st hle hlen
    rw [List.foldl_cons]
    obtain ⟨h1, h2, h3⟩ := stepRes_dump st res hle hlen
    obtain ⟨g1, g2, g3⟩ := ih (stepRes true st res) h3 h2
    refine ⟨?_, g2, g3⟩
    rw [g1, h1]
    simp only [runDumpable, List.map_cons, List.sum_cons]
    omega

theorem compose_dumpLines_length (resources : List PyVal) :
    ((resources.foldl (stepRes true) ⟨[], 0, []⟩).dumpLines).length
      = min dump_cap (runDumpable resources) := by
  obtain ⟨h1, h2, _⟩ := foldl_stepRes_dump resources ⟨[], 0, []⟩ (by simp [dump_cap]) rfl
  rw [h2, h1]
  simp

theorem squashAux_good : ∀ (l : List Char) (p : Bool) (c : Char),
    c ∈ squashAux l p → goodChar c = true := by
  intro l
  induction l with
  | nil =>
    intro p c hc
    simp only [squashAux] at hc
    split at hc
    · rw [List.mem_singleton] at hc
      subst hc
      decide
    · exact absurd hc (List.not_mem_nil c)
  | cons a rest ih =>
    intro p c hc
    simp only [squashAux] at hc
    split at hc
    · rename_i hgood
      split at hc
      · simp only [List.cons_append, List.nil_append, List.mem_cons] at hc
        rcases hc with h | h | h
        · subst h; decide
        · subst h; exact hgood
        · exact ih false c h
      · simp only [List.cons_append, List.nil_append, List.mem_cons] at hc
        rcases hc with h | h
        · subst h; exact hgood
        · exact ih false c h
    · exact ih true c hc

theorem stripUnd_mem (l : List Char) (c : Char) (hc : c ∈ stripUnd l) : c ∈ l := by
  simp only [stripUnd, List.mem_reverse] at hc
  have h1 := (List.dropWhile_sublist (l := (l.dropWhile (· == '_')).reverse)
    (p := (· == '_'))).subset hc
  rw [List.mem_reverse] at h1
  exact (List.dropWhile_sublist (l := l) (p := (· == '_'))).subset h1

theorem sanitize_good_chars (v : PyVal) (c : Char)
    (hc : c ∈ (stripUnd (squashAux ((pyStripWs (pyStr v).toList).map Char.toLower) false))) :
    goodChar c = true :=
  squashAux_good _ false c (stripUnd_mem _ c hc)

theorem sanitize_name_matches (v : PyVal) : isTfLocalName (sanitize_name v) = true := by
  have hgood := sanitize_good_chars v
  simp only [sanitize_name]
  cases hl : stripUnd (squashAux ((pyStripWs (pyStr v).toList).map Char.toLower) false) with
  | nil => decide
  | cons c rest =>
    rw [hl] at hgood
    have hcg : goodChar c = true := hgood c (by simp)
    have hrest : rest.all goodChar = true := by
      rw [List.all_eq_true]
      intro x hx
      exact hgood x (List.mem_cons_of_mem c hx)
    show isTfLocalName
      (if c.isDigit then "r_" ++ String.mk (c :: rest) else String.mk (c :: rest)) = true
    by_cases hdig : c.isDigit = true
    · rw [if_pos hdig]
      simp only [isTfLocalName]
      have hsteq : ("r_" ++ String.mk (c :: rest)).toList = 'r' :: '_' :: c :: rest := rfl
      rw [hsteq]
      simp only [List.all_cons, hrest, hcg, Bool.and_true]
      decide
    · rw [if_neg hdig]
      simp only [isTfLocalName]
      have hsteq : (String.mk (c :: rest)).toList = c :: rest := rfl
      rw [hsteq]
      simp only [List.all_cons, hrest, Bool.and_true]
      simp only [goodChar, Bool.or_assoc, Bool.or_eq_true] at hcg
      rcases hcg with h | h | h
      · rw [h, Bool.true_or]
      · exact absurd h hdig
      · rw [h, Bool.or_true]

theorem scanTopIds_none (kvs : FieldMap) (h : dictIdsNoneOrEmpty kvs = true) :
    scanTopIds kvs = none := by
  rw [scanTopIds, List.findSome?_eq_none_iff]
  rw [dictIdsNoneOrEmpty, List.all_eq_true] at h
  intro k hk
  have := h k hk
  cases hlk : plookup kvs k with
  | none => simp
  | some v =>
    rw [hlk] at this
    simp only at this
    simp only [hlk, this, if_true]

theorem scanNestedIds_none (kvs : FieldMap) (h : nestedIdsFalsy kvs = true) :
    scanNestedIds kvs = none := by
  rw [scanNestedIds, List.findSome?_eq_none_iff]
  rw [nestedIdsFalsy, List.all_eq_true] at h
  intro k hk
  have hk2 := h k hk
  cases hlk : plookup kvs k with
  | none => simp
  | some v =>
    cases v with
    | pdict sub =>
      rw [hlk] at hk2
      simp only at hk2
      rw [List.all_eq_true] at hk2
      simp only
      rw [List.findSome?_eq_none_iff]
      intro ik hik
      have := hk2 ik hik
      cases hsub : plookup sub ik with
      | none => simp
      | some w =>
        rw [hsub] at this
        simp only at this
        rw [Bool.not_eq_true'] at this
        simp only [hsub, this, Bool.false_eq_true, if_false]
    | pnone => simp [hlk]
    | pbool b => simp [hlk]
    | pint n => simp [hlk]
    | pstr s => simp [hlk]
    | pbytes s => simp [hlk]
    | plist xs => simp [hlk]
    | pobj a mk it => simp [hlk]
    | pmeth w => simp [hlk]
    | pmethRaise => simp [hlk]

theorem attrScan_none (item : PyVal) (h : attrIdsFalsy item = true) :
    attrScan item idKeys = none := by
  rw [attrScan, List.findSome?_eq_none_iff]
  rw [attrIdsFalsy, List.all_eq_true] at h
  intro k hk
  have := h k hk
  rw [Bool.not_eq_true'] at this
  simp only [this, Bool.false_eq_true, if_false]

theorem getScan_none (item : PyVal) (h : getIdsFalsy item = true) :
    getScan item = none := by
  rw [getScan]
  rw [getIdsFalsy] at h
  cases hg : pgetcall item with
  | none => rfl
  | some g =>
    rw [hg] at h
    rw [List.all_eq_true] at h
    simp only
    rw [List.findSome?_eq_none_iff]
    intro k hk
    have := h k hk
    cases hgk : g k with
    | error e => simp [hgk]
    | ok v =>
      rw [hgk] at this
      simp only at this
      rw [Bool.not_eq_true'] at this
      simp only [hgk, this, Bool.false_eq_true, if_false]

theorem indexScan_none (item : PyVal) (h : indexIdsFalsy item = true) :
    indexScan item = none := by
  rw [indexIdsFalsy, List.all_eq_true] at h
  have h1 := h "jpro_id" (by simp)
  have h2 := h "id" (by simp)
  rw [indexScan]
  cases hg1 : pgetitem item "jpro_id" with
  | error e =>
    simp only [hg1]
    cases hg2 : pgetitem item "id" with
    | error e2 => simp
    | ok v =>
      rw [hg2] at h2
      simp only at h2
      rw [Bool.not_eq_true'] at h2
      simp [h2]
  | ok v =>
    rw [hg1] at h1
    simp only at h1
    rw [Bool.not_eq_true'] at h1
    simp only [hg1, h1, Bool.false_eq_true, if_false]
    cases hg2 : pgetitem item "id" with
    | error e2 => simp
    | ok w =>
      rw [hg2] at h2
      simp only at h2
      rw [Bool.not_eq_true'] at h2
      simp [h2]

theorem walkN_pdict_eq (n : Nat) (kvs : FieldMap) :
    walkN (n + 1) (.pdict kvs) [] = .ok (some kvs, [.pdict kvs]) := rfl

theorem obj_to_dict_deep_pdict (kvs : FieldMap) (d : Int) (hd : 0 ≤ d) :
    obj_to_dict_deep (.pdict kvs) d = .ok (some kvs) := by
  have h1 : (d + 1).toNat = d.toNat + 1 := by omega
  rw [obj_to_dict_deep, h1, walkN_pdict_eq]

theorem scanTopIds_jpro (kvs : FieldMap) (v : PyVal)
    (hlk : plookup kvs "jpro_id" = some v)
    (hv1 : pyBeq v .pnone = false) (hv2 : pyBeq v (.pstr "") = false) :
    scanTopIds kvs = some (pyStr v) := by
  rw [scanTopIds]
  show List.findSome? _ ("jpro_id" :: _) = _
  rw [List.findSome?_cons]
  simp only [hlk, hv1, hv2, Bool.or_self, Bool.false_eq_true, if_false]

theorem candLoop_none (res : PyVal) :
    ∀ (as : List String), (∀ a ∈ as, scalarFieldVal ((pgetattr res a).getD .pnone) = true) →
      candLoop res as = none := by
  intro as
  induction as with
  | nil => intro _; rfl
  | cons a rest ih =>
    intro h
    have ha := h a (by simp)
    have hrest : ∀ x ∈ rest, scalarFieldVal ((pgetattr res x).getD .pnone) = true :=
      fun x hx => h x (List.mem_cons_of_mem a hx)
    rw [candLoop]
    cases hv : (pgetattr res a).getD .pnone with
    | pnone => simp only; exact ih hrest
    | pstr s => simp only; exact ih hrest
    | pbytes s => simp only; exact ih hrest
    | pdict kvs => simp only; exact ih hrest
    | pbool b => rw [hv] at ha; exact absurd ha (by simp [scalarFieldVal])
    | pint n => rw [hv] at ha; exact absurd ha (by simp [scalarFieldVal])
    | plist xs => rw [hv] at ha; exact absurd ha (by simp [scalarFieldVal])
    | pobj at_ mk it => rw [hv] at ha; exact absurd ha (by simp [scalarFieldVal])
    | pmeth v => rw [hv] at ha; exact absurd ha (by simp [scalarFieldVal])
    | pmethRaise => rw [hv] at ha; exact absurd ha (by simp [scalarFieldVal])

theorem getterLoop_none (res : PyVal) :
    ∀ (ms : List String),
      (∀ m ∈ ms, (match (pgetattr res m).getD .pnone with
        | .pmeth _ => false | .pmethRaise => false | _ => true) = true) →
      getterLoop res ms = none := by
  intro ms
  induction ms with
  | nil => intro _; rfl
  | cons m rest ih =>
    intro h
    have hm := h m (by simp)
    have hrest : ∀ x ∈ rest, (match (pgetattr res x).getD .pnone with
        | .pmeth _ => false | .pmethRaise => false | _ => true) = true :=
      fun x hx => h x (List.mem_cons_of_mem m hx)
    rw [getterLoop]
    cases hv : (pgetattr res m).getD .pnone with
    | pmeth v => rw [hv] at hm; exact absurd hm (by simp)
    | pmethRaise => rw [hv] at hm; exact absurd hm (by simp)
    | pnone => simp only; exact ih hrest
    | pbool b => simp only; exact ih hrest
    | pint n => simp only; exact ih hrest
    | pstr s => simp only; exact ih hrest
    | pbytes s => simp only; exact ih hrest
    | plist xs => simp only; exact ih hrest
    | pdict kvs => simp only; exact ih hrest
    | pobj at_ mk it => simp only; exact ih hrest

theorem sanity38 : (compose_import_hcl c7Run true).map (fun p => p.2.length) = .ok 0 := by decide

theorem sanity39 : runItemCount c7Run = 50 := by decide

/- =====================================================================
Claim theorems.
===================================================================== -/

/-- C1 (counterexample): on the spec's end-to-end example input, the compiler
does NOT return the text the claim states: the claimed local name
`my_script_` keeps the trailing underscore, but `sanitize_name` strips
leading and trailing underscores after collapsing `!`, so the emitted local
name is `my_script`. -/
theorem c1_counterexample :
    (compose_import_hcl c1Run false).map Prod.fst
      ≠ .ok ("import \x7b\n  id = \"1\"\n  to = jamfpro_script.my_script_\n\x7d\n\n# No items found for CATEGORY\n") := by
  decide

/-- C1 (amended): the end-to-end example yields exactly one import block with
local name `my_script` (the trailing underscore produced by sanitizing the
trailing `!` is removed by the final `strip("_")`), one blank line, the
diagnostic `# No items found for CATEGORY`, and a trailing newline. -/
theorem c1_end_to_end :
    compose_import_hcl c1Run false
      = .ok ("import \x7b\n  id = \"1\"\n  to = jamfpro_script.my_script\n\x7d\n\n# No items found for CATEGORY\n", []) := by
  decide

/-- C2: the name sanitizer is total: for every input string its output is
non-empty and matches `^[a-z_][a-z0-9_]*$`. -/
theorem c2_sanitizer_total (s : String) :
    sanitize_name (.pstr s) ≠ "" ∧ isTfLocalName (sanitize_name (.pstr s)) = true := by
  have h := sanitize_name_matches (.pstr s)
  refine ⟨?_, h⟩
  intro he
  rw [he] at h
  exact absurd h (by decide)

/-- C3: neither the shape prober nor the whole compile pass raises past its
boundary: for every record and every depth the prober returns a result, and
for every group sequence the compiler returns an output text (with its
diagnostics) — every `Except` is `ok`. -/
theorem c3_no_exception_escapes :
    (∀ (o : PyVal) (d : Int), (obj_to_dict_deep o d).isOk = true)
      ∧ (∀ (resources : List PyVal) (dumping : Bool),
          (compose_import_hcl resources dumping).isOk = true) := by
  constructor
  · intro o d
    obtain ⟨r, hr⟩ := obj_to_dict_deep_ok o d
    rw [hr]
    rfl
  · intro resources dumping
    rw [compose_eq]
    rfl

/-- C4 (counterexample): the claim that falsy values are treated as absent at
every step fails: the top-level dict scan only skips `None` and `""`, so a
record binding `jpro_id` to the falsy value `0` has it stringified and
returned instead of `none`. -/
theorem c4_counterexample :
    truthy (.pint 0) = false
      ∧ extract_id_any (.pdict [("jpro_id", .pint 0)]) = .ok (some "0") := by
  exact ⟨rfl, rfl⟩

/-- C4 (amended): the extractor returns `none` for every record all of whose
resolvable candidate values are absent in the sense each step actually uses:
`None`-or-empty-string at the top-level dict scan (`0` and `False` would be
stringified there), and falsiness at the nested scan, the attribute, the
mapping-`get` and the indexing fallbacks. -/
theorem c4_falsy_absent (item : PyVal)
    (h1 : probeIdsAbsent item = true) (h2 : attrIdsFalsy item = true)
    (h3 : getIdsFalsy item = true) (h4 : indexIdsFalsy item = true) :
    extract_id_any item = .ok none := by
  obtain ⟨fm, hfm⟩ := obj_to_dict_deep_ok item 3
  rw [probeIdsAbsent, hfm] at h1
  simp only [extract_id_any, hfm]
  cases fm with
  | none =>
    simp only [attrScan_none item h2, getScan_none item h3, indexScan_none item h4]
  | some kvs =>
    simp only [exOk] at h1
    rw [Bool.and_eq_true] at h1
    simp only [scanTopIds_none kvs h1.1, scanNestedIds_none kvs h1.2,
        attrScan_none item h2, getScan_none item h3, indexScan_none item h4]

/-- C4 (witness): a record binding `id` to `""` and `uid` to `None` satisfies
every absence hypothesis and extracts no identifier. -/
theorem c4_witness :
    probeIdsAbsent (.pdict [("id", .pstr ""), ("uid", .pnone)]) = true
      ∧ attrIdsFalsy (.pdict [("id", .pstr ""), ("uid", .pnone)]) = true
      ∧ getIdsFalsy (.pdict [("id", .pstr ""), ("uid", .pnone)]) = true
      ∧ indexIdsFalsy (.pdict [("id", .pstr ""), ("uid", .pnone)]) = true
      ∧ extract_id_any (.pdict [("id", .pstr ""), ("uid", .pnone)]) = .ok none :=
  ⟨by decide, by decide, by decide, by decide,
   c4_falsy_absent _ (by decide) (by decide) (by decide) (by decide)⟩

/-- C5: identifier key precedence: when a field map binds both `jpro_id` and
`id` to non-`None`, non-empty values, the extractor returns the stringified
`jpro_id` value. -/
theorem c5_jpro_id_precedence (kvs : FieldMap) (v w : PyVal)
    (hv : plookup kvs "jpro_id" = some v)
    (hv1 : pyBeq v .pnone = false) (hv2 : pyBeq v (.pstr "") = false)
    (_hw : plookup kvs "id" = some w)
    (_hw1 : pyBeq w .pnone = false) (_hw2 : pyBeq w (.pstr "") = false) :
    extract_id_any (.pdict kvs) = .ok (some (pyStr v)) := by
  simp only [extract_id_any, obj_to_dict_deep_pdict kvs 3 (by omega),
    scanTopIds_jpro kvs v hv hv1 hv2]

/-- C5 (witness): with `jpro_id = 7` and `id = "2"` both present and
non-empty, the extractor returns `"7"`. -/
theorem c5_witness :
    plookup [("jpro_id", .pint 7), ("id", .pstr "2")] "jpro_id" = some (.pint 7)
      ∧ plookup [("jpro_id", .pint 7), ("id", .pstr "2")] "id" = some (.pstr "2")
      ∧ extract_id_any (.pdict [("jpro_id", .pint 7), ("id", .pstr "2")]) = .ok (some "7") :=
  ⟨rfl, rfl,
   c5_jpro_id_precedence _ (.pint 7) (.pstr "2") rfl rfl rfl rfl rfl rfl⟩

/-- C6: a group whose detected tag contains no classifier-table key
contributes exactly one diagnostic line naming the tag and no import blocks,
and every other group's entries are exactly what they would be on their own
(the whole run's entry list splits around the single diagnostic). -/
theorem c6_kind_skip (A B : List PyVal) (bad : PyVal) (dumping : Bool)
    (h : classifyTag (detect_tag bad) = none) :
    groupEntries bad = ["# Skipping unsupported resource tag: " ++ detect_tag bad]
      ∧ ∃ dls, compose_import_hcl (A ++ bad :: B) dumping
          = .ok (renderEntries (runEntries A
              ++ ("# Skipping unsupported resource tag: " ++ detect_tag bad) :: runEntries B),
             dls) := by
  have hg : groupEntries bad = ["# Skipping unsupported resource tag: " ++ detect_tag bad] := by
    simp only [groupEntries, h]
  have hr : runEntries (A ++ bad :: B)
      = runEntries A ++ ("# Skipping unsupported resource tag: " ++ detect_tag bad) :: runEntries B := by
    simp only [runEntries, List.flatMap_append, List.flatMap_cons, hg, List.singleton_append]
  refine ⟨hg, ⟨((A ++ bad :: B).foldl (stepRes dumping) ⟨[], 0, []⟩).dumpLines, ?_⟩⟩
  rw [compose_eq, hr]

/-- C6 (witness): a `SCRIPT` group, an `UNKNOWN_TYPE` group and a `CATEGORY`
group: the unknown group contributes exactly its skip diagnostic and the run
splits around it. -/
theorem c6_witness :
    classifyTag (detect_tag c6Bad) = none
      ∧ (groupEntries c6Bad = ["# Skipping unsupported resource tag: " ++ detect_tag c6Bad]
        ∧ ∃ dls, compose_import_hcl (c6A ++ c6Bad :: c6B) false
            = .ok (renderEntries (runEntries c6A
                ++ ("# Skipping unsupported resource tag: " ++ detect_tag c6Bad) :: runEntries c6B),
               dls)) :=
  ⟨by decide, c6_kind_skip c6A c6B c6Bad false (by decide)⟩

/-- C7 (counterexample): a single classified `SCRIPT` group with 50 items —
each probing to a field map holding a bytes value that `json.dumps` cannot
serialize — writes 0 sample lines, not 20: the swallowed serialization
failure does not advance the counter. -/
theorem c7_counterexample :
    runItemCount c7Run = 50
      ∧ (compose_import_hcl c7Run true).map (fun p => p.2.length) = .ok 0 :=
  ⟨by decide, by decide⟩

/-- C7 (amended): with a sample sink configured, the number of sample lines
written over the whole run is exactly `min 20 k`, where `k` counts the items
of classified, non-empty groups whose sample record serializes — so never
more than 20, shared across all groups, and exactly 20 whenever at least 20
items serialize (in particular for 50 such items, however distributed), but
fewer when sample records fail to serialize. -/
theorem c7_sample_cap (resources : List PyVal) :
    ∃ t dls, compose_import_hcl resources true = .ok (t, dls)
      ∧ dls.length = min dump_cap (runDumpable resources) :=
  ⟨_, _, compose_eq resources true, compose_dumpLines_length resources⟩

/-- C8: the compiler's output is the ordered concatenation of the entries
(import blocks and diagnostics) of the groups in given order — items in
original order within each group — separated by one blank line, with a single
trailing newline exactly when at least one entry was produced. -/
theorem c8_output_assembly (resources : List PyVal) (dumping : Bool) :
    runEntries resources = resources.flatMap groupEntries
      ∧ ∃ dls, compose_import_hcl resources dumping
          = .ok (String.intercalate "\n\n" (runEntries resources)
              ++ (if (runEntries resources).isEmpty then "" else "\n"), dls) :=
  ⟨rfl, ⟨_, compose_eq resources dumping⟩⟩

/-- C9: the shape prober is the identity on plain mappings: for any
non-negative depth, probing a dict returns exactly that dict (the source
returns the very object it was given), with no further strategy applied. -/
theorem c9_probe_returns_mapping (kvs : FieldMap) (d : Int) (hd : 0 ≤ d) :
    obj_to_dict_deep (.pdict kvs) d = .ok (some kvs) :=
  obj_to_dict_deep_pdict kvs d hd

/-- C9 (witness): probing the mapping `{"a": 1}` at the default depth 3
returns it unchanged. -/
theorem c9_witness :
    (0 : Int) ≤ 3
      ∧ obj_to_dict_deep (.pdict [("a", .pint 1)]) 3 = .ok (some [("a", .pint 1)]) :=
  ⟨by decide, c9_probe_returns_mapping [("a", .pint 1)] 3 (by decide)⟩

/-- C10: when every resolvable candidate accessor field holds a string,
bytes or dict (or `None`) and no getter method is callable, the item accessor
returns the empty list — it never iterates a string's characters or a dict's
keys as items. -/
theorem c10_scalar_fields_empty (res : PyVal)
    (h1 : candFieldsScalar res = true) (h2 : noGetterCallables res = true) :
    iter_items_from_resource res = [] := by
  rw [candFieldsScalar, List.all_eq_true] at h1
  rw [noGetterCallables, List.all_eq_true] at h2
  simp only [iter_items_from_resource, candLoop_none res candAttrNames h1,
    getterLoop_none res getterMethNames h2]

/-- C10 (witness): a resource whose `data` field holds the string `"abc"` and
whose `items` field holds a dict yields no items (rather than three
one-character items or the dict's keys). -/
theorem c10_witness :
    candFieldsScalar (.pobj [("data", .pstr "abc"), ("items", .pdict [("k", .pint 1)])] .pnone .pnone) = true
      ∧ noGetterCallables (.pobj [("data", .pstr "abc"), ("items", .pdict [("k", .pint 1)])] .pnone .pnone) = true
      ∧ iter_items_from_resource
          (.pobj [("data", .pstr "abc"), ("items", .pdict [("k", .pint 1)])] .pnone .pnone) = [] :=
  ⟨by decide, by decide, c10_scalar_fields_empty _ (by decide) (by decide)⟩
